import Mathlib

/-!
Verification of the company-contact scraper (scraper.py) against its
specification.  The Python program is shallowly embedded: pure fragments
become Lean functions; the browser fetch, the Gemini call and the JSON
decoding are abstracted as oracle parameters (they are external
collaborators); the per-row main loop becomes explicit state passing over
an `AppState`.  Machine-level concerns do not arise (all data is strings,
lists and small naturals).
-/

set_option autoImplicit false

namespace Scraper

/-- The three sentinel cell values recognised by the scraper
(the list of the strings Not found, Error and Duplicate used in
`update_excel_row` and `find_empty_rows`). -/
def sentinels : List String := ["Not found", "Error", "Duplicate"]

/-- Python `s.startswith(pre)`, expressed on the character data of the
strings. -/
def str_startswith (s pre : String) : Bool := pre.data.isPrefixOf s.data

/-- Occurrence of a pattern inside a character list: the pattern is a
prefix of some suffix. -/
def data_contains (s pat : List Char) : Bool :=
  pat.isPrefixOf s ||
    match s with
    | [] => false
    | _ :: rest => data_contains rest pat

/-- Python `pat in s` (substring containment), as used by the XPATH
`contains(...)` test. -/
def str_contains_sub (s pat : String) : Bool := data_contains s.data pat.data

/-- Python `s.strip()`: drop whitespace from both ends of the character
data. -/
def str_strip (s : String) : String :=
  String.mk (((s.data.dropWhile Char.isWhitespace).reverse.dropWhile Char.isWhitespace).reverse)

/-- The XPATH translate lowercasing of A-Z to a-z: `Char.toLower` maps
exactly A-Z to a-z and fixes every other character. -/
def str_toLower (s : String) : String := String.mk (s.data.map Char.toLower)

/-- The apostrophe character (U+0027) that `update_excel_row` prepends to
phone values beginning with a plus sign. -/
def apos : Char := Char.ofNat 39

/-- The one-character apostrophe string from `update_excel_row`. -/
def aposStr : String := String.mk [apos]

/-- `ContactInfo` from scraper.py: the extracted email and phone lists.
The `raw_text` field of the Python dataclass is write-only in the source
(never read anywhere) and is omitted. -/
structure ContactInfo where
  emails : List String
  phones : List String
deriving Repr, DecidableEq

/-- State of `GeminiExtractor`: `client` is `none` when `genai.Client()`
raised during `__init__` (the API-key failure path).  The
`generate_content` call, the markdown-fence stripping and the
`json.loads` decoding are external collaborators; together they are
abstracted as `oracle`, mapping the html content and url to either an
exception or the decoded `(emails, phones)` lists. -/
structure GeminiExtractor where
  client : Option Unit
  oracle : String → String → Except Unit (List String × List String)

/-- `GeminiExtractor.extract_contacts` (scraper.py lines 74-160): with no
client it returns the empty `ContactInfo`; otherwise it runs the call and
decode, returning the empty `ContactInfo` on any exception, and on
success truncates each list to its first 5 entries (`emails[:5]`,
`phones[:5]`). -/
def extract_contacts (g : GeminiExtractor) (html_content url : String) : ContactInfo :=
  match g.client with
  | none => ⟨[], []⟩
  | some _ =>
    match g.oracle html_content url with
    | .error _ => ⟨[], []⟩
    | .ok (emails, phones) => ⟨emails.take 5, phones.take 5⟩

/-- The protocol guard at the start of the `try` block of
`scrape_website`: URLs lacking `http://` or `https://` get `https://`
prepended. -/
def ensure_protocol (url : String) : String :=
  if str_startswith url "http://" || str_startswith url "https://" then url
  else "https://" ++ url

/-- `CompanyContactScraper.scrape_website` (scraper.py lines 380-428).
The duplicate test `url in self.scraped_urls` runs on the raw cell value,
BEFORE the protocol guard; the value added to the set on success is the
guarded `url2`.  `fetchPage` abstracts `driver.get` + cookie handling +
contact-page navigation + `driver.page_source` (an exception anywhere in
the `try` block is its `error` case); `extract_contacts` itself never
raises.  Returns the `(email, phone)` result pair together with the
updated processed-URL set. -/
def scrape_website (g : GeminiExtractor) (fetchPage : String → Except Unit String)
    (scraped_urls : List String) (url : String) : (String × String) × List String :=
  if scraped_urls.contains url then (("Duplicate", "Duplicate"), scraped_urls)
  else
    let url2 := ensure_protocol url
    match fetchPage url2 with
    | .error _ => (("Error", "Error"), scraped_urls)
    | .ok page_source =>
      let contact_info := extract_contacts g page_source url2
      let email_result :=
        if contact_info.emails.isEmpty then "Not found"
        else String.intercalate ", " contact_info.emails
      let phone_result :=
        if contact_info.phones.isEmpty then "Not found"
        else String.intercalate ", " contact_info.phones
      ((email_result, phone_result), url2 :: scraped_urls)

/-- One spreadsheet row after `load_excel_file` has cleaned the dataframe
and reset the index: the URL cell, the `Email` cell, the `Phone number`
cell, and the remaining cells of the row.  `none` models a NaN cell. -/
structure Row where
  url : Option String
  email : Option String
  phone : Option String
  other : List (Option String) := []
deriving Repr, DecidableEq

/-- The per-cell emptiness test of `find_empty_rows`:
the cell is NaN, or its stripped text is empty or one of the three
sentinels. -/
def cell_is_empty (c : Option String) : Bool :=
  match c with
  | none => true
  | some s =>
    str_strip s == "" || str_strip s == "Not found"
      || str_strip s == "Error" || str_strip s == "Duplicate"

/-- The URL cell as read in `find_empty_rows`:
`row[url_column] if pd.notna(row[url_column]) else ""`. -/
def url_cell (r : Row) : String := r.url.getD ""

/-- The candidate test of `find_empty_rows`:
`(email_empty or phone_empty) and url and str(url).strip()`. -/
def row_pending (r : Row) : Bool :=
  (cell_is_empty r.email || cell_is_empty r.phone)
    && !(url_cell r == "") && !(str_strip (url_cell r) == "")

/-- Loop body of `CompanyContactScraper.find_empty_rows` (scraper.py
lines 430-445): iterate rows in order carrying the accumulator
`empty_rows`; break as soon as it holds `count` entries; append
`(index, str(url).strip())` for each pending row. -/
def find_empty_rows_go (count : Nat) : Nat → List Row → List (Nat × String) →
    List (Nat × String)
  | _, [], acc => acc
  | index, r :: rest, acc =>
    if count ≤ acc.length then acc
    else if row_pending r then
      find_empty_rows_go count (index + 1) rest (acc ++ [(index, str_strip (url_cell r))])
    else
      find_empty_rows_go count (index + 1) rest acc

/-- `CompanyContactScraper.find_empty_rows`: collect up to `count`
pending `(index, url)` pairs in row order. -/
def find_empty_rows (count : Nat) (rows : List Row) : List (Nat × String) :=
  find_empty_rows_go count 0 rows []

/-- Specification-side view of the pending rows: the indexed list of all
pending rows from position `start`, with their stripped URLs. -/
def pending_candidates (start : Nat) (rows : List Row) : List (Nat × String) :=
  (List.enumFrom start rows).filterMap (fun p =>
    if row_pending p.2 then some (p.1, str_strip (url_cell p.2)) else none)

/-- The phone escape of `update_excel_row`: a non-sentinel, non-empty
phone starting with `+` gets a literal apostrophe prepended, defeating
the spreadsheet autoconversion of a leading `+`. -/
def escape_phone (phone : String) : String :=
  if !(phone == "") && !(sentinels.contains phone) && str_startswith phone "+" then
    aposStr ++ phone
  else phone

/-- The two `df.at` assignments of `update_excel_row`, at a positional
index (the dataframe index is reset to positions by `clean_dataframe`, so
labels coincide with positions and the loop only ever passes in-range
indices). -/
def set_row_cells : List Row → Nat → String → String → List Row
  | [], _, _, _ => []
  | r :: rest, 0, email, phone => { r with email := some email, phone := some phone } :: rest
  | r :: rest, n + 1, email, phone => r :: set_row_cells rest n email phone

/-- `CompanyContactScraper.update_excel_row` (scraper.py lines 447-458):
escape the phone, then write the `Email` and `Phone number` cells of the
given row.  The `try` body cannot raise at an in-range index. -/
def update_excel_row (df : List Row) (index : Nat) (email phone : String) : List Row :=
  set_row_cells df index email (escape_phone phone)

/-- Filesystem effects of `save_excel`, abstracted: whether the
spreadsheet file currently exists on disk, how many `shutil.copy2` calls
to the backup path have run, and how many `to_excel` writes have run. -/
structure FS where
  mainExists : Bool
  backupWrites : Nat
  saves : Nat
deriving Repr, DecidableEq

/-- `CompanyContactScraper.save_excel` (scraper.py lines 460-477): on
EVERY call, if the spreadsheet file exists it is first copied to the
backup path; then the dataframe is written over the spreadsheet file. -/
def save_excel (fs : FS) : FS :=
  let fs1 := if fs.mainExists then { fs with backupWrites := fs.backupWrites + 1 } else fs
  { fs1 with mainExists := true, saves := fs1.saves + 1 }

/-- The mutable state threaded through the main loop of
`CompanyContactScraper.run`: the dataframe, the processed-URL set, the
filesystem, and `processed_count`. -/
structure AppState where
  df : List Row
  scraped_urls : List String
  fs : FS
  processed_count : Nat
deriving Repr, DecidableEq

/-- The per-row loop of `CompanyContactScraper.run` (scraper.py lines
543-561) over `rows_to_process`: break when `processed_count` reaches
`num_websites`; otherwise scrape, update the row, bump the counter, save,
and continue with the next row. -/
def runLoop (g : GeminiExtractor) (fetchPage : String → Except Unit String)
    (num_websites : Nat) : List (Nat × String) → AppState → AppState
  | [], st => st
  | (index, url) :: rest, st =>
    if num_websites ≤ st.processed_count then st
    else
      let r := scrape_website g fetchPage st.scraped_urls url
      runLoop g fetchPage num_websites rest
        { df := update_excel_row st.df index r.1.1 r.1.2
          scraped_urls := r.2
          fs := save_excel st.fs
          processed_count := st.processed_count + 1 }

/-- The keyword list of `navigate_to_contact_page`. -/
def contact_keywords : List String := ["contact", "kontakt", "contacto", "contatti", "impressum"]

/-- The XPATH test of `navigate_to_contact_page` for one keyword: the
anchor text, lowercased (the XPATH translate over A-Z), contains the
keyword as a substring.  A link is a `(text, href)` pair. -/
def link_text_matches (kw : String) (link : String × String) : Bool :=
  str_contains_sub (str_toLower link.1) kw

/-- `CompanyContactScraper.navigate_to_contact_page` (scraper.py lines
354-378), as a selection function over the pages `(text, href)` anchor
list: for each keyword in order, click the first anchor whose lowercased
text contains that keyword; return `none` (no navigation) when no keyword
matches any anchor.  The href plays no part in the selection. -/
def navigate_to_contact_page (links : List (String × String)) : Option (String × String) :=
  contact_keywords.findSome? (fun kw => links.find? (link_text_matches kw))

/-- Modelled from the spec: the per-link score of the contact-link scorer
described in §4.1 — +10 per keyword substring match in the link text plus
+5 per keyword substring match in the href, summed over all keywords.  No
such scorer exists in src/scraper.py. -/
def link_score (kws : List String) (link : String × String) : Nat :=
  kws.foldl (fun acc kw =>
    acc + (if str_contains_sub link.1 kw then 10 else 0)
        + (if str_contains_sub link.2 kw then 5 else 0)) 0

/-- Modelled from the spec: the selection rule of the §4.1 scorer —
the link with strictly highest positive score, ties keeping the first
encountered, and no selection when no link scores above zero. -/
def best_scored_link (kws : List String) (links : List (String × String)) :
    Option (String × String) :=
  (links.foldl (fun best link =>
    match best with
    | none =>
      if 0 < link_score kws link then some (link, link_score kws link) else none
    | some (b, bs) =>
      if bs < link_score kws link then some (link, link_score kws link) else some (b, bs))
    none).map Prod.fst

/-- Number of decimal digit characters in a string. -/
def digit_count (s : String) : Nat := (s.data.filter Char.isDigit).length

/-- Modelled from the spec: the digit-count acceptance test of the
regex-path phone extraction (§4.2) — a candidate is kept iff its digit
count lies in [9, 15].  src/scraper.py declares the phone regex patterns
(lines 183-186) but the regex extraction body that applies them and
filters candidates is not present in src/. -/
def phone_digits_ok (s : String) : Bool := 9 ≤ digit_count s && digit_count s ≤ 15

/-- Modelled from the spec: the regex path keeps exactly the matched
phone candidates whose digit count lies in [9, 15]. -/
def filter_phone_candidates (cands : List String) : List String :=
  cands.filter phone_digits_ok

/-- Modelled from the spec: reading a phone cell back from the saved
spreadsheet — the destination format treats a leading apostrophe as a
text-escape marker, which is consumed on read, so the cell yields the
text after the marker.  This read-back lives in the spreadsheet
application, not in src/. -/
def read_cell_back (stored : String) : String :=
  if str_startswith stored aposStr then String.mk stored.data.tail else stored

/-- Iterated `save_excel`, for describing the filesystem after `n` loop
iterations. -/
def save_iter : Nat → FS → FS
  | 0, fs => fs
  | n + 1, fs => save_iter n (save_excel fs)

/-! Helper lemmas about the row update. -/

lemma set_row_cells_length (df : List Row) (index : Nat) (e p : String) :
    (set_row_cells df index e p).length = df.length := by
  induction df generalizing index with
  | nil => rfl
  | cons r rest ih =>
    cases index with
    | zero => rfl
    | succ n => simpa [set_row_cells] using ih n

lemma set_row_cells_getElem_ne (df : List Row) (index : Nat) (e p : String) (j : Nat)
    (hj : j ≠ index) : (set_row_cells df index e p)[j]? = df[j]? := by
  induction df generalizing index j with
  | nil => rfl
  | cons r rest ih =>
    cases index with
    | zero =>
      cases j with
      | zero => exact absurd rfl hj
      | succ m => rfl
    | succ n =>
      cases j with
      | zero => simp [set_row_cells]
      | succ m =>
        have := ih n m (fun h => hj (by omega))
        simpa [set_row_cells]

lemma set_row_cells_getElem_eq (df : List Row) (index : Nat) (e p : String)
    (hidx : index < df.length) :
    ∃ r, df[index]? = some r ∧
      (set_row_cells df index e p)[index]? =
        some { r with email := some e, phone := some p } := by
  induction df generalizing index with
  | nil => simp at hidx
  | cons r rest ih =>
    cases index with
    | zero => exact ⟨r, by simp, by simp [set_row_cells]⟩
    | succ n =>
      have hn : n < rest.length := by simpa using hidx
      obtain ⟨r0, h1, h2⟩ := ih n hn
      exact ⟨r0, by simpa using h1, by simpa [set_row_cells] using h2⟩

lemma str_startswith_plus_ne_empty (phone : String)
    (h : str_startswith phone "+" = true) : phone ≠ "" := by
  intro he
  subst he
  simp [str_startswith, List.isPrefixOf] at h

lemma escape_phone_plus (phone : String)
    (hplus : str_startswith phone "+" = true) (hsent : phone ∉ sentinels) :
    escape_phone phone = aposStr ++ phone := by
  have hne : phone ≠ "" := str_startswith_plus_ne_empty phone hplus
  have hc : sentinels.contains phone = false := by simpa using hsent
  simp [escape_phone, hplus, hne, hc]
  exact fun h => absurd h hsent

lemma read_cell_back_apos (phone : String) :
    read_cell_back (aposStr ++ phone) = phone := by
  have hdata : (aposStr ++ phone).data = apos :: phone.data := rfl
  unfold read_cell_back str_startswith
  rw [hdata]
  simp [aposStr, List.isPrefixOf]

/-- C4: for every html input and url, the AI extractor truncates each
returned list to at most 5 entries; with an unavailable client, and on
any failure of the call or of the JSON decode, it returns the empty
result instead of raising, so the AI path never fails the enclosing
row. -/
theorem extract_contacts_truncates_and_never_fails
    (g : GeminiExtractor) (html url : String) :
    (extract_contacts g html url).emails.length ≤ 5 ∧
    (extract_contacts g html url).phones.length ≤ 5 ∧
    (g.client = none → extract_contacts g html url = ⟨[], []⟩) ∧
    (∀ e, g.oracle html url = .error e → extract_contacts g html url = ⟨[], []⟩) := by
  cases hcl : g.client with
  | none =>
    refine ⟨?_, ?_, fun _ => ?_, fun e he => ?_⟩ <;> simp [extract_contacts, hcl]
  | some u =>
    cases hor : g.oracle html url with
    | error e0 =>
      refine ⟨?_, ?_, fun h => ?_, fun e he => ?_⟩
      · simp [extract_contacts, hcl, hor]
      · simp [extract_contacts, hcl, hor]
      · simp [hcl] at h
      · simp [extract_contacts, hcl, hor]
    | ok v =>
      obtain ⟨es, ps⟩ := v
      refine ⟨?_, ?_, fun h => ?_, fun e he => ?_⟩
      · simp [extract_contacts, hcl, hor]
      · simp [extract_contacts, hcl, hor]
      · simp [hcl] at h
      · simp at he

/-- C4 witness: at a concrete failed-to-initialise extractor the result
is empty and within the truncation bound. -/
theorem extract_contacts_truncates_witness :
    extract_contacts ⟨none, fun _ _ => Except.ok (["a@b.c"], [])⟩ "<html>" "u"
      = ⟨[], []⟩ ∧
    (extract_contacts ⟨none, fun _ _ => Except.ok (["a@b.c"], [])⟩ "<html>" "u").emails.length
      ≤ 5 :=
  ⟨(extract_contacts_truncates_and_never_fails
      ⟨none, fun _ _ => Except.ok (["a@b.c"], [])⟩ "<html>" "u").2.2.1 rfl,
    (extract_contacts_truncates_and_never_fails
      ⟨none, fun _ _ => Except.ok (["a@b.c"], [])⟩ "<html>" "u").1⟩

/-- C8: in the regex extraction path (modelled from the spec, the regex
body being absent from src), a matched phone candidate is kept iff its
digit count lies in the interval [9, 15]. -/
theorem filter_phone_candidates_spec (cands : List String) (c : String) :
    c ∈ filter_phone_candidates cands ↔
      c ∈ cands ∧ 9 ≤ digit_count c ∧ digit_count c ≤ 15 := by
  simp [filter_phone_candidates, List.mem_filter, phone_digits_ok,
    Bool.and_eq_true, decide_eq_true_eq, and_assoc]

/-- C8 witness: an 11-digit candidate passes the filter while a 2-digit
one does not. -/
theorem filter_phone_candidates_spec_witness :
    "+37012345678" ∈ filter_phone_candidates ["+37012345678", "12"] ∧
    "12" ∉ filter_phone_candidates ["+37012345678", "12"] :=
  ⟨(filter_phone_candidates_spec ["+37012345678", "12"] "+37012345678").mpr
      ⟨by decide, by decide, by decide⟩,
    fun h => by
      have := ((filter_phone_candidates_spec ["+37012345678", "12"] "12").mp h).2.1
      simp [digit_count] at this⟩

/-- C9: when the Gemini client failed to initialise, every successfully
fetched, non-duplicate URL yields the pair (Not found, Not found),
whatever the page content is — no regex fallback extraction happens on
any path (the compiled patterns play no part in `scrape_website`). -/
theorem scrape_website_client_none_not_found
    (g : GeminiExtractor) (fetchPage : String → Except Unit String)
    (scraped_urls : List String) (url page_source : String)
    (hclient : g.client = none)
    (hdup : scraped_urls.contains url = false)
    (hfetch : fetchPage (ensure_protocol url) = .ok page_source) :
    scrape_website g fetchPage scraped_urls url
      = (("Not found", "Not found"), ensure_protocol url :: scraped_urls) := by
  have hmem : url ∉ scraped_urls := by simpa using hdup
  simp [scrape_website, hdup, hmem, hfetch, extract_contacts, hclient]

/-- C9 witness: concrete run with a dead client. -/
theorem scrape_website_client_none_witness :
    scrape_website ⟨none, fun _ _ => Except.ok (["a@b.c"], ["+370 1"])⟩
        (fun _ => Except.ok "<html>a@b.c</html>") [] "example.com"
      = (("Not found", "Not found"), ["https://example.com"]) := by
  have h := scrape_website_client_none_not_found
    ⟨none, fun _ _ => Except.ok (["a@b.c"], ["+370 1"])⟩
    (fun _ => Except.ok "<html>a@b.c</html>") [] "example.com" "<html>a@b.c</html>"
    rfl (by decide) rfl
  simpa using h

/-- C10: `update_excel_row` only writes the Email and Phone number cells
of the addressed row: the dataframe keeps its length, every other row is
unchanged, and the addressed row keeps its URL cell and all its other
cells. -/
theorem update_excel_row_frame
    (df : List Row) (index : Nat) (email phone : String)
    (hidx : index < df.length) :
    (update_excel_row df index email phone).length = df.length ∧
    (∀ j, j ≠ index → (update_excel_row df index email phone)[j]? = df[j]?) ∧
    ∃ r, df[index]? = some r ∧
      (update_excel_row df index email phone)[index]? =
        some { r with email := some email, phone := some (escape_phone phone) } :=
  ⟨set_row_cells_length df index email (escape_phone phone),
    fun j hj => set_row_cells_getElem_ne df index email (escape_phone phone) j hj,
    set_row_cells_getElem_eq df index email (escape_phone phone) hidx⟩

/-- C10 witness: concrete two-row dataframe, row 0 updated. -/
theorem update_excel_row_frame_witness :
    (update_excel_row [⟨some "a.com", none, none, []⟩, ⟨some "b.com", none, none, []⟩]
      0 "e@f.g" "555").length = 2 := by
  have h := update_excel_row_frame
    [⟨some "a.com", none, none, []⟩, ⟨some "b.com", none, none, []⟩] 0 "e@f.g" "555"
    (by decide)
  exact h.1.trans (by decide)

/-- C5: a non-sentinel phone beginning with a plus sign is stored with a
leading apostrophe prepended, and the escape round-trips: the spreadsheet
read-back (which consumes the apostrophe marker) recovers the phone
exactly. -/
theorem update_excel_row_phone_escape_roundtrip
    (df : List Row) (index : Nat) (email phone : String)
    (hidx : index < df.length)
    (hplus : str_startswith phone "+" = true)
    (hsent : phone ∉ sentinels) :
    (∃ r, df[index]? = some r ∧
      (update_excel_row df index email phone)[index]? =
        some { r with email := some email, phone := some (aposStr ++ phone) }) ∧
    read_cell_back (aposStr ++ phone) = phone := by
  have he : escape_phone phone = aposStr ++ phone := escape_phone_plus phone hplus hsent
  obtain ⟨r, h1, h2⟩ := set_row_cells_getElem_eq df index email (escape_phone phone) hidx
  refine ⟨⟨r, h1, ?_⟩, read_cell_back_apos phone⟩
  show (set_row_cells df index email (escape_phone phone))[index]? =
    some { r with email := some email, phone := some (aposStr ++ phone) }
  rw [he] at h2 ⊢
  exact h2

/-- C5 witness: writing +3701234567 stores the apostrophe-escaped value
and reading the cell back recovers the literal digits. -/
theorem update_excel_row_phone_escape_roundtrip_witness :
    read_cell_back (aposStr ++ "+3701234567") = "+3701234567" ∧
    read_cell_back (escape_phone "+3701234567") = "+3701234567" :=
  ⟨(update_excel_row_phone_escape_roundtrip [⟨some "a.com", none, none, []⟩] 0
      "e@f.g" "+3701234567" (by decide) (by decide) (by decide)).2,
    by decide⟩

/-- C1 (evidence of the divergence): with the same scheme-less URL cell
appearing twice, the first scrape stores the https-prefixed form in the
processed set, so the second scrape of the identical raw cell is NOT
short-circuited to (Duplicate, Duplicate) — it re-fetches and returns the
extractor result.  Only a literally schemed repeat is caught. -/
theorem duplicate_check_misses_schemeless_repeat :
    (scrape_website ⟨some (), fun _ _ => Except.ok ([], [])⟩ (fun _ => Except.ok "page")
        [] "example.com").2 = ["https://example.com"] ∧
    (scrape_website ⟨some (), fun _ _ => Except.ok ([], [])⟩ (fun _ => Except.ok "page")
        ["https://example.com"] "example.com").1 = ("Not found", "Not found") ∧
    (scrape_website ⟨some (), fun _ _ => Except.ok ([], [])⟩ (fun _ => Except.ok "page")
        ["https://example.com"] "example.com").1 ≠ ("Duplicate", "Duplicate") ∧
    (scrape_website ⟨some (), fun _ _ => Except.ok ([], [])⟩ (fun _ => Except.ok "page")
        ["https://example.com"] "https://example.com").1 = ("Duplicate", "Duplicate") :=
  ⟨by decide, by decide, by decide, by decide⟩

/-- C7 counterexample: on the links (kontakt, /x) and (contact, /y) the
spec-modelled scorer ties both links at score 10 and keeps the first
(kontakt), while the selector in the code walks keywords in order and
clicks the contact link — the code does not implement the claimed
scoring selection. -/
theorem link_scorer_claim_counterexample :
    best_scored_link contact_keywords [("kontakt", "/x"), ("contact", "/y")]
      = some ("kontakt", "/x") ∧
    navigate_to_contact_page [("kontakt", "/x"), ("contact", "/y")]
      = some ("contact", "/y") ∧
    navigate_to_contact_page [("kontakt", "/x"), ("contact", "/y")]
      ≠ best_scored_link contact_keywords [("kontakt", "/x"), ("contact", "/y")] :=
  ⟨by decide, by decide, by decide⟩

/-! Helper lemmas about the pending-row scan. -/

lemma pending_candidates_nil (start : Nat) : pending_candidates start [] = [] := rfl

lemma pending_candidates_cons (start : Nat) (r : Row) (rest : List Row) :
    pending_candidates start (r :: rest) =
      (if row_pending r then [(start, str_strip (url_cell r))] else [])
        ++ pending_candidates (start + 1) rest := by
  by_cases h : row_pending r <;> simp [pending_candidates, List.enumFrom, h]

lemma find_empty_rows_go_stop (count index : Nat) (rows : List Row)
    (acc : List (Nat × String)) (h : count ≤ acc.length) :
    find_empty_rows_go count index rows acc = acc := by
  cases rows with
  | nil => rfl
  | cons r rest => simp [find_empty_rows_go, h]

lemma find_empty_rows_go_spec (count : Nat) :
    ∀ (rows : List Row) (index : Nat) (acc : List (Nat × String)),
      find_empty_rows_go count index rows acc =
        acc ++ (pending_candidates index rows).take (count - acc.length) := by
  intro rows
  induction rows with
  | nil =>
    intro index acc
    simp [find_empty_rows_go, pending_candidates]
  | cons r rest ih =>
    intro index acc
    by_cases hstop : count ≤ acc.length
    · rw [find_empty_rows_go_stop count index _ acc hstop,
        Nat.sub_eq_zero_of_le hstop]
      simp
    · have hlt : acc.length < count := Nat.lt_of_not_le hstop
      by_cases hp : row_pending r
      · have hstep : find_empty_rows_go count index (r :: rest) acc =
            find_empty_rows_go count (index + 1) rest
              (acc ++ [(index, str_strip (url_cell r))]) := by
          simp [find_empty_rows_go, hstop, hp]
        rw [hstep, ih (index + 1) (acc ++ [(index, str_strip (url_cell r))]),
          pending_candidates_cons]
        have hn : count - acc.length = (count - (acc.length + 1)) + 1 := by omega
        simp [hp, hn, List.take_succ_cons]
      · have hstep : find_empty_rows_go count index (r :: rest) acc =
            find_empty_rows_go count (index + 1) rest acc := by
          simp [find_empty_rows_go, hstop, hp]
        rw [hstep, ih (index + 1) acc, pending_candidates_cons]
        simp [hp]

lemma find_empty_rows_eq_take (count : Nat) (rows : List Row) :
    find_empty_rows count rows = (pending_candidates 0 rows).take count := by
  rw [find_empty_rows, find_empty_rows_go_spec count rows 0 []]
  simp

lemma mem_pending_candidates {start : Nat} {rows : List Row} {i : Nat} {u : String}
    (h : (i, u) ∈ pending_candidates start rows) :
    start ≤ i ∧ ∃ r, rows[i - start]? = some r ∧ row_pending r = true
      ∧ u = str_strip (url_cell r) := by
  induction rows generalizing start with
  | nil => simp [pending_candidates] at h
  | cons r rest ih =>
    rw [pending_candidates_cons] at h
    rcases List.mem_append.mp h with h1 | h2
    · by_cases hp : row_pending r
      · simp [hp] at h1
        obtain ⟨hi, hu⟩ := h1
        subst hi
        subst hu
        refine ⟨by omega, r, by simp, hp, rfl⟩
      · simp [hp] at h1
    · obtain ⟨hle, r0, hr, hpend, hu⟩ := ih h2
      refine ⟨by omega, r0, ?_, hpend, hu⟩
      have hi : i - start = (i - (start + 1)) + 1 := by omega
      rw [hi]
      simpa using hr

lemma pending_candidates_pairwise (rows : List Row) :
    ∀ start : Nat,
      List.Pairwise (fun a b : Nat × String => a.1 < b.1)
        (pending_candidates start rows) := by
  induction rows with
  | nil => intro start; simp [pending_candidates]
  | cons r rest ih =>
    intro start
    rw [pending_candidates_cons]
    by_cases hp : row_pending r
    · simp only [hp, if_pos, List.singleton_append]
      refine List.pairwise_cons.mpr ⟨?_, ih (start + 1)⟩
      intro b hb
      obtain ⟨i, u⟩ := b
      have h1 := (mem_pending_candidates hb).1
      show start < i
      omega
    · simpa [hp] using ih (start + 1)

/-! Helper lemmas about the main loop. -/

lemma save_excel_saves (fs : FS) : (save_excel fs).saves = fs.saves + 1 := by
  by_cases h : fs.mainExists <;> simp [save_excel, h]

lemma save_excel_backupWrites_of_true (fs : FS) (h : fs.mainExists = true) :
    (save_excel fs).backupWrites = fs.backupWrites + 1 := by
  simp [save_excel, h]

lemma save_excel_mainExists (fs : FS) : (save_excel fs).mainExists = true := by
  by_cases h : fs.mainExists <;> simp [save_excel, h]

lemma runLoop_cons (g : GeminiExtractor) (fetchPage : String → Except Unit String)
    (num index : Nat) (url : String) (rest : List (Nat × String)) (st : AppState)
    (h : st.processed_count < num) :
    runLoop g fetchPage num ((index, url) :: rest) st =
      runLoop g fetchPage num rest
        { df := update_excel_row st.df index
            (scrape_website g fetchPage st.scraped_urls url).1.1
            (scrape_website g fetchPage st.scraped_urls url).1.2
          scraped_urls := (scrape_website g fetchPage st.scraped_urls url).2
          fs := save_excel st.fs
          processed_count := st.processed_count + 1 } := by
  simp [runLoop, Nat.not_le.mpr h]

lemma runLoop_stats (g : GeminiExtractor) (fetchPage : String → Except Unit String)
    (num : Nat) :
    ∀ (rows : List (Nat × String)) (st : AppState),
      st.processed_count + rows.length ≤ num → st.fs.mainExists = true →
      (runLoop g fetchPage num rows st).processed_count
          = st.processed_count + rows.length ∧
      (runLoop g fetchPage num rows st).fs.saves = st.fs.saves + rows.length ∧
      (runLoop g fetchPage num rows st).fs.backupWrites
          = st.fs.backupWrites + rows.length ∧
      (runLoop g fetchPage num rows st).fs.mainExists = true := by
  intro rows
  induction rows with
  | nil =>
    intro st h hm
    simpa [runLoop] using hm
  | cons p rest ih =>
    intro st h hm
    obtain ⟨index, url⟩ := p
    have hlen : st.processed_count + (rest.length + 1) ≤ num := by simpa using h
    have hlt : st.processed_count < num := by omega
    rw [runLoop_cons g fetchPage num index url rest st hlt]
    obtain ⟨h1, h2, h3, h4⟩ := ih
      { df := update_excel_row st.df index
          (scrape_website g fetchPage st.scraped_urls url).1.1
          (scrape_website g fetchPage st.scraped_urls url).1.2
        scraped_urls := (scrape_website g fetchPage st.scraped_urls url).2
        fs := save_excel st.fs
        processed_count := st.processed_count + 1 }
      (by show st.processed_count + 1 + rest.length ≤ num
          omega)
      (save_excel_mainExists st.fs)
    refine ⟨?_, ?_, ?_, h4⟩
    · rw [h1]
      simp
      omega
    · rw [h2, save_excel_saves]
      simp
      omega
    · rw [h3, save_excel_backupWrites_of_true st.fs hm]
      simp
      omega

lemma scrape_website_error (g : GeminiExtractor) (fetchPage : String → Except Unit String)
    (scraped_urls : List String) (url : String)
    (hdup : url ∉ scraped_urls)
    (hfail : fetchPage (ensure_protocol url) = .error ()) :
    scrape_website g fetchPage scraped_urls url = (("Error", "Error"), scraped_urls) := by
  simp [scrape_website, hdup, hfail]

lemma runLoop_all_error (g : GeminiExtractor) (fetchPage : String → Except Unit String)
    (num : Nat) (hfail : ∀ u, fetchPage u = .error ()) :
    ∀ (rows : List (Nat × String)) (st : AppState),
      (∀ p ∈ rows, p.2 ∉ st.scraped_urls) →
      st.processed_count + rows.length ≤ num →
      runLoop g fetchPage num rows st =
        { df := rows.foldl (fun d p => update_excel_row d p.1 "Error" "Error") st.df
          scraped_urls := st.scraped_urls
          fs := save_iter rows.length st.fs
          processed_count := st.processed_count + rows.length } := by
  intro rows
  induction rows with
  | nil =>
    intro st _ _
    simp [runLoop, save_iter]
  | cons p rest ih =>
    intro st hnodup hnum
    obtain ⟨index, url⟩ := p
    have hlen : st.processed_count + (rest.length + 1) ≤ num := by simpa using hnum
    have hlt : st.processed_count < num := by omega
    have hstep : runLoop g fetchPage num ((index, url) :: rest) st =
        runLoop g fetchPage num rest
          { df := update_excel_row st.df index "Error" "Error"
            scraped_urls := st.scraped_urls
            fs := save_excel st.fs
            processed_count := st.processed_count + 1 } := by
      rw [runLoop_cons g fetchPage num index url rest st hlt,
        scrape_website_error g fetchPage st.scraped_urls url
          (hnodup (index, url) (List.mem_cons_self _ _)) (hfail _)]
    rw [hstep,
      ih { df := update_excel_row st.df index "Error" "Error"
           scraped_urls := st.scraped_urls
           fs := save_excel st.fs
           processed_count := st.processed_count + 1 }
        (fun q hq => hnodup q (List.mem_cons_of_mem _ hq))
        (by show st.processed_count + 1 + rest.length ≤ num
            omega)]
    simp [save_iter]
    omega

/-- C2: any exception during the fetch/extract phase for a row is caught
inside `scrape_website`, which returns (Error, Error); the main loop
records the pair and continues: with every fetch failing, a run over the
pending rows marks each listed row Error exactly once, saves after each,
and still visits all of them — no retry, no early abort. -/
theorem scrape_error_marks_row_and_loop_continues
    (g : GeminiExtractor) (fetchPage : String → Except Unit String) (num : Nat)
    (rows : List (Nat × String)) (st : AppState)
    (hfail : ∀ u, fetchPage u = .error ())
    (hnodup : ∀ p ∈ rows, p.2 ∉ st.scraped_urls)
    (hnum : st.processed_count + rows.length ≤ num) :
    (∀ url, url ∉ st.scraped_urls →
      scrape_website g fetchPage st.scraped_urls url
        = (("Error", "Error"), st.scraped_urls)) ∧
    runLoop g fetchPage num rows st =
      { df := rows.foldl (fun d p => update_excel_row d p.1 "Error" "Error") st.df
        scraped_urls := st.scraped_urls
        fs := save_iter rows.length st.fs
        processed_count := st.processed_count + rows.length } :=
  ⟨fun url hu => scrape_website_error g fetchPage st.scraped_urls url hu (hfail _),
    runLoop_all_error g fetchPage num hfail rows st hnodup hnum⟩

/-- C2 witness: two rows, both fetches raising; both rows end Error and
the loop finishes having processed both. -/
theorem scrape_error_witness :
    runLoop ⟨some (), fun _ _ => Except.ok ([], [])⟩ (fun _ => Except.error ()) 2
        [(0, "a.com"), (1, "b.com")]
        ⟨[⟨some "a.com", none, none, []⟩, ⟨some "b.com", none, none, []⟩], [],
          ⟨true, 0, 0⟩, 0⟩ =
      ⟨[⟨some "a.com", some "Error", some "Error", []⟩,
        ⟨some "b.com", some "Error", some "Error", []⟩], [], ⟨true, 2, 2⟩, 2⟩ := by
  have h := scrape_error_marks_row_and_loop_continues
    ⟨some (), fun _ _ => Except.ok ([], [])⟩ (fun _ => Except.error ()) 2
    [(0, "a.com"), (1, "b.com")]
    ⟨[⟨some "a.com", none, none, []⟩, ⟨some "b.com", none, none, []⟩], [], ⟨true, 0, 0⟩, 0⟩
    (fun _ => rfl) (by decide) (by decide)
  rw [h.2]
  decide

/-- C3: `find_empty_rows` returns at most `count` pairs — exactly the
first `count` entries of the in-order pending-row candidate list; every
returned pair points at a row whose email or phone cell is empty or a
sentinel and whose URL cell strips to something non-empty, and carries
that stripped URL; indices appear in spreadsheet order; when fewer than
`count` pending rows exist, all of them (that smaller number) are
returned, and the main loop over the returned rows then processes exactly
that many rows and terminates. -/
theorem find_empty_rows_spec (count : Nat) (rows : List Row) :
    (find_empty_rows count rows).length ≤ count ∧
    find_empty_rows count rows = (pending_candidates 0 rows).take count ∧
    (∀ p ∈ find_empty_rows count rows, ∃ r, rows[p.1]? = some r ∧
      (cell_is_empty r.email || cell_is_empty r.phone) = true ∧
      str_strip (url_cell r) ≠ "" ∧ p.2 = str_strip (url_cell r)) ∧
    List.Pairwise (fun a b : Nat × String => a.1 < b.1) (find_empty_rows count rows) ∧
    ((pending_candidates 0 rows).length ≤ count →
      find_empty_rows count rows = pending_candidates 0 rows) ∧
    (∀ (g : GeminiExtractor) (fetchPage : String → Except Unit String) (st : AppState),
      st.processed_count = 0 → st.fs.mainExists = true →
      (runLoop g fetchPage count (find_empty_rows count rows) st).processed_count
        = (find_empty_rows count rows).length) := by
  have htake := find_empty_rows_eq_take count rows
  refine ⟨?_, htake, ?_, ?_, ?_, ?_⟩
  · rw [htake]
    simp
  · intro p hp
    obtain ⟨i, u⟩ := p
    have hmem : (i, u) ∈ pending_candidates 0 rows :=
      (List.take_sublist count (pending_candidates 0 rows)).subset (htake ▸ hp)
    obtain ⟨_, r, hr, hpend, hu⟩ := mem_pending_candidates hmem
    simp only [row_pending, Bool.and_eq_true] at hpend
    refine ⟨r, by simpa using hr, hpend.1.1, ?_, hu⟩
    simpa using hpend.2
  · rw [htake]
    exact List.Pairwise.sublist (List.take_sublist count _)
      (pending_candidates_pairwise rows 0)
  · intro hle
    rw [htake]
    exact List.take_of_length_le hle
  · intro g fetchPage st hpc hm
    have hlen : (find_empty_rows count rows).length ≤ count := by
      rw [htake]
      simp
    have := (runLoop_stats g fetchPage count (find_empty_rows count rows) st
      (by omega) hm).1
    omega

/-- C3 witness: asking for 3 rows when exactly one pending row exists
yields that single row, and the loop processes exactly one row. -/
theorem find_empty_rows_spec_witness :
    find_empty_rows 3 [⟨some "done.com", some "a@b.c", some "123", []⟩,
        ⟨some "example.com", some "", none, []⟩] = [(1, "example.com")] ∧
    (runLoop ⟨some (), fun _ _ => Except.ok ([], [])⟩ (fun _ => Except.ok "page") 3
      (find_empty_rows 3 [⟨some "done.com", some "a@b.c", some "123", []⟩,
        ⟨some "example.com", some "", none, []⟩])
      ⟨[⟨some "done.com", some "a@b.c", some "123", []⟩,
        ⟨some "example.com", some "", none, []⟩], [], ⟨true, 0, 0⟩, 0⟩).processed_count
      = 1 := by
  constructor
  · decide
  · have h := (find_empty_rows_spec 3 [⟨some "done.com", some "a@b.c", some "123", []⟩,
      ⟨some "example.com", some "", none, []⟩]).2.2.2.2.2
      ⟨some (), fun _ _ => Except.ok ([], [])⟩ (fun _ => Except.ok "page")
      ⟨[⟨some "done.com", some "a@b.c", some "123", []⟩,
        ⟨some "example.com", some "", none, []⟩], [], ⟨true, 0, 0⟩, 0⟩ rfl rfl
    rw [h]
    decide

/-- C6 (amended): the spreadsheet is persisted after every processed row,
and before EVERY save — not only the first — the existing file is copied
over the single backup path; a run over n pending rows therefore performs
n saves and n backup copies. -/
theorem save_excel_backs_up_every_save
    (g : GeminiExtractor) (fetchPage : String → Except Unit String) (num : Nat)
    (rows : List (Nat × String)) (st : AppState)
    (hm : st.fs.mainExists = true)
    (hnum : st.processed_count + rows.length ≤ num) :
    (runLoop g fetchPage num rows st).fs.saves = st.fs.saves + rows.length ∧
    (runLoop g fetchPage num rows st).fs.backupWrites
      = st.fs.backupWrites + rows.length :=
  ⟨(runLoop_stats g fetchPage num rows st hnum hm).2.1,
    (runLoop_stats g fetchPage num rows st hnum hm).2.2.1⟩

/-- C6 witness: a concrete two-row run saves twice and backs up twice. -/
theorem save_excel_backs_up_every_save_witness :
    (runLoop ⟨some (), fun _ _ => Except.ok ([], [])⟩ (fun _ => Except.ok "page") 2
        [(0, "a.com"), (1, "b.com")]
        ⟨[⟨some "a.com", none, none, []⟩, ⟨some "b.com", none, none, []⟩], [],
          ⟨true, 0, 0⟩, 0⟩).fs.saves = 2 ∧
    (runLoop ⟨some (), fun _ _ => Except.ok ([], [])⟩ (fun _ => Except.ok "page") 2
        [(0, "a.com"), (1, "b.com")]
        ⟨[⟨some "a.com", none, none, []⟩, ⟨some "b.com", none, none, []⟩], [],
          ⟨true, 0, 0⟩, 0⟩).fs.backupWrites = 2 := by
  have h := save_excel_backs_up_every_save
    ⟨some (), fun _ _ => Except.ok ([], [])⟩ (fun _ => Except.ok "page") 2
    [(0, "a.com"), (1, "b.com")]
    ⟨[⟨some "a.com", none, none, []⟩, ⟨some "b.com", none, none, []⟩], [], ⟨true, 0, 0⟩, 0⟩
    rfl (by decide)
  exact ⟨h.1.trans (by decide), h.2.trans (by decide)⟩

/-! Helper lemma for the contact-link selector. -/

lemma findSome?_map_opt {α β γ : Type} (f : β → γ) (g : α → Option β) :
    ∀ l : List α, l.findSome? (fun a => (g a).map f) = (l.findSome? g).map f
  | [] => rfl
  | a :: l => by
    cases h : g a <;>
      simp [List.findSome?_cons, h, findSome?_map_opt f g l]

/-- C7 (amended): the selector in the code walks the fixed keyword list
in order and clicks the first link whose lowercased text contains the
current keyword; it computes no score and never looks at the href (a
pointwise rewrite of every href leaves the selection on the same link);
it selects nothing exactly when no keyword occurs in any link text; as a
pure function of the link list it is deterministic. -/
theorem navigate_to_contact_page_spec (links : List (String × String)) :
    (navigate_to_contact_page links = none ↔
      ∀ l ∈ links, ∀ kw ∈ contact_keywords, link_text_matches kw l = false) ∧
    (∀ l, navigate_to_contact_page links = some l →
      l ∈ links ∧ ∃ kw ∈ contact_keywords, link_text_matches kw l = true) ∧
    (∀ hrefs : String → String,
      navigate_to_contact_page (links.map (fun l => (l.1, hrefs l.1))) =
        (navigate_to_contact_page links).map (fun l => (l.1, hrefs l.1))) := by
  refine ⟨?_, ?_, ?_⟩
  · rw [navigate_to_contact_page, List.findSome?_eq_none_iff]
    constructor
    · intro h l hl kw hkw
      have hn := List.find?_eq_none.mp (h kw hkw) l hl
      simpa using hn
    · intro h kw hkw
      rw [List.find?_eq_none]
      intro l hl
      simp [h l hl kw hkw]
  · intro l hsome
    obtain ⟨kw, hkw, hfind⟩ := List.exists_of_findSome?_eq_some hsome
    exact ⟨List.mem_of_find?_eq_some hfind, kw, hkw, List.find?_some hfind⟩
  · intro hrefs
    rw [navigate_to_contact_page, navigate_to_contact_page, ← findSome?_map_opt]
    congr 1
    funext kw
    rw [List.find?_map]
    rfl

/-- C7 amended-claim witness: a concrete page where the selector picks
the contact link, which indeed carries a keyword in its text. -/
theorem navigate_to_contact_page_spec_witness :
    navigate_to_contact_page [("About us", "/a"), ("Contact us", "/c")]
        = some ("Contact us", "/c") ∧
    ("Contact us", "/c") ∈ [("About us", "/a"), ("Contact us", "/c")] ∧
    ∃ kw ∈ contact_keywords, link_text_matches kw ("Contact us", "/c") = true := by
  refine ⟨by decide, ?_⟩
  have h := (navigate_to_contact_page_spec [("About us", "/a"), ("Contact us", "/c")]).2.1
    ("Contact us", "/c") (by decide)
  exact ⟨h.1, h.2⟩

/-- C6 counterexample: a two-row run starting from an existing
spreadsheet performs two saves and copies the file to the backup path
before EACH of them — the backup is not made exactly once. -/
theorem backup_not_made_exactly_once_counterexample :
    (runLoop ⟨some (), fun _ _ => Except.ok ([], [])⟩ (fun _ => Except.ok "page") 2
        [(0, "a.com"), (1, "b.com")]
        ⟨[⟨some "a.com", none, none, []⟩, ⟨some "b.com", none, none, []⟩], [],
          ⟨true, 0, 0⟩, 0⟩).fs.saves = 2 ∧
    (runLoop ⟨some (), fun _ _ => Except.ok ([], [])⟩ (fun _ => Except.ok "page") 2
        [(0, "a.com"), (1, "b.com")]
        ⟨[⟨some "a.com", none, none, []⟩, ⟨some "b.com", none, none, []⟩], [],
          ⟨true, 0, 0⟩, 0⟩).fs.backupWrites = 2 ∧
    (runLoop ⟨some (), fun _ _ => Except.ok ([], [])⟩ (fun _ => Except.ok "page") 2
        [(0, "a.com"), (1, "b.com")]
        ⟨[⟨some "a.com", none, none, []⟩, ⟨some "b.com", none, none, []⟩], [],
          ⟨true, 0, 0⟩, 0⟩).fs.backupWrites ≠ 1 :=
  ⟨by decide, by decide, by decide⟩

end Scraper
